import Mathlib

set_option linter.unusedVariables false

/- Shallow embedding of the AlgoBot trading-system core: Variant A
   (momentum breakout strategy), Variant B (simple moving-average
   crossover), the parameter optimizer's scoring and ranking, and the
   decision-criteria evaluator. Python floats are modelled by rationals,
   calendar dates by integer day ordinals. -/

/-- Exit reasons emitted by Variant A (momentum breakout strategy). -/
inductive ExitReason : Type
  | stop_loss
  | target
  | time_stop
  | extended_time_stop
  deriving DecidableEq, Repr

/-- Open-position state tracked by Variant A: entry price, entry date
(as an integer day ordinal), stop price and target price, exactly the
fields set by `enter_position` in the source. -/
structure PositionA : Type where
  entry_price : ℚ
  entry_date : ℤ
  stop_price : ℚ
  target_price : ℚ
  deriving DecidableEq, Repr

/-- Variant A per-bar exit check (`check_exit_conditions` in
`momentum_breakout_strategy.py`): stop-loss first, then target, then the
time-based rules; `days_held` is the calendar difference between the
current bar's date and the entry date, and the extended deadline is the
hard-coded constant 14 from the source. -/
def check_exit_conditions (p : PositionA) (current_price : ℚ) (current_date : ℤ)
    (max_hold_days : ℤ) : Option ExitReason :=
  if current_price ≤ p.stop_price then some .stop_loss
  else if current_price ≥ p.target_price then some .target
  else
    let days_held : ℤ := current_date - p.entry_date
    let current_pnl_pct : ℚ := (current_price / p.entry_price - 1) * 100
    if days_held ≥ max_hold_days then
      if current_pnl_pct ≤ 1 then some .time_stop
      else if days_held ≥ 14 then some .extended_time_stop
      else none
    else none

/-- Replay of the LONG phase of Variant A over a list of (date, close)
bars: the first bar on which `check_exit_conditions` fires determines the
exit; the result is the zero-based index of that bar together with the
exit reason, or `none` when the position is still open at the end. -/
def run_exits (p : PositionA) (max_hold_days : ℤ) :
    List (ℤ × ℚ) → Option (ℕ × ExitReason)
  | [] => none
  | (d, c) :: rest =>
    match check_exit_conditions p c d max_hold_days with
    | some r => some (0, r)
    | none => (run_exits p max_hold_days rest).map (fun x => (x.1 + 1, x.2))

/-- Position states observed on each bar while the Variant A position is
open: the source never reassigns the position fields between entry and
exit, so the state carried into each bar is the entry-time record. -/
def long_states (p : PositionA) (max_hold_days : ℤ) :
    List (ℤ × ℚ) → List PositionA
  | [] => []
  | (d, c) :: rest =>
    match check_exit_conditions p c d max_hold_days with
    | some _ => [p]
    | none => p :: long_states p max_hold_days rest

/-- Trailing window of length `w` ending at index `i` of a series. -/
def windowSlice (xs : List ℚ) (w i : ℕ) : List ℚ :=
  (xs.take (i + 1)).drop (i + 1 - w)

/-- Simple moving average indicator: arithmetic mean of the trailing `w`
values, `none` (the "not ready" sentinel) before the lookback window is
filled or past the end of the series. -/
def simple_moving_average (xs : List ℚ) (w i : ℕ) : Option ℚ :=
  if w ≤ i + 1 ∧ 0 < w ∧ i < xs.length then some ((windowSlice xs w i).sum / w)
  else none

/-- Rolling maximum indicator (backtrader `Highest`): maximum of the
trailing `w` values, `none` before the window is filled. -/
def rolling_max (xs : List ℚ) (w i : ℕ) : Option ℚ :=
  if w ≤ i + 1 ∧ i < xs.length then (windowSlice xs w i).max? else none

/-- One daily OHLCV bar; the date is an integer day ordinal. -/
structure BarA : Type where
  date : ℤ
  opn : ℚ
  high : ℚ
  low : ℚ
  close : ℚ
  volume : ℚ
  deriving DecidableEq, Repr

/-- Entry-side parameters of Variant A. -/
structure AParams : Type where
  lookback_high : ℕ
  volume_lookback : ℕ
  volume_threshold : ℚ
  sma_period : ℕ
  rsi_lower : ℚ
  rsi_upper : ℚ
  deriving DecidableEq, Repr

/-- Variant A entry gate (`check_entry_conditions` in
`momentum_breakout_strategy.py`): the four booleans computed at bar `i` —
breakout above the PREVIOUS bar's rolling high of the highs, volume surge
against the average volume, close above the trend moving average, and RSI
inside the configured band — all conjoined. The RSI indicator is supplied
as a series, matching the spec's treatment of indicator primitives as an
external numeric library. -/
def check_entry_conditions (p : AParams) (bars : List BarA) (rsi : ℕ → ℚ)
    (i : ℕ) : Bool :=
  match bars[i]?,
        rolling_max (bars.map BarA.high) p.lookback_high (i - 1),
        simple_moving_average (bars.map BarA.volume) p.volume_lookback i,
        simple_moving_average (bars.map BarA.close) p.sma_period i with
  | some bar, some prev_highest, some avg_volume, some sma_value =>
    let breakout := decide (bar.close > prev_highest)
    let volume_surge := decide (bar.volume > avg_volume * p.volume_threshold)
    let uptrend := decide (bar.close > sma_value)
    let rsi_healthy := decide (p.rsi_lower < rsi i) && decide (rsi i < p.rsi_upper)
    breakout && volume_surge && uptrend && rsi_healthy
  | _, _, _, _ => false

/-- Python `int()` conversion applied to a rational: truncation toward
zero. -/
def pyInt (q : ℚ) : ℤ := if 0 ≤ q then ⌊q⌋ else ⌈q⌉

/-- A positive truncation equals the floor. -/
theorem pyInt_pos_eq_floor {q : ℚ} (h : 0 < pyInt q) : pyInt q = ⌊q⌋ := by
  unfold pyInt at h ⊢
  split_ifs at h ⊢ with h0
  · rfl
  · exfalso
    push_neg at h0
    have hc : ⌈q⌉ ≤ (0 : ℤ) := Int.ceil_le.mpr (by exact_mod_cast h0.le)
    omega

/-- Variant A `enter_position`: position value is the hard-coded fraction
0.30 of portfolio value, the size is the Python `int()` of
`position_value / entry_price`, and the entry is skipped (returning
`none`, so the strategy stays flat) when the size is nonpositive or the
cost exceeds available cash; otherwise the position record is created
with `stop_price = entry_price * (1 - stop_loss_pct)` and
`target_price = entry_price * (1 + target_pct)`. -/
def enter_position (portfolio_value available_cash entry_price : ℚ)
    (entry_date : ℤ) (stop_loss_pct target_pct : ℚ) : Option (ℤ × PositionA) :=
  let position_value := portfolio_value * (3 / 10)
  let size := pyInt (position_value / entry_price)
  if size ≤ 0 then none
  else if (size : ℚ) * entry_price > available_cash then none
  else some (size, ⟨entry_price, entry_date,
    entry_price * (1 - stop_loss_pct), entry_price * (1 + target_pct)⟩)

/-- Exit reasons of Variant B (`simple_ma_crossover.py`). -/
inductive BExitReason : Type
  | signal_reversal
  | stop_loss
  deriving DecidableEq, Repr

/-- Open-position state of Variant B: entry price and the stop set at
entry time. -/
structure PositionB : Type where
  entry_price : ℚ
  stop_price : ℚ
  deriving DecidableEq, Repr

/-- Variant B entry (`next` while flat): on an upward crossover the size
is `int(cash * position_pct / close)`; the trade executes only when the
size is positive, with `stop_price = close * (1 - stop_loss_pct)`. -/
def enterB (crossover : ℤ) (cash position_pct close stop_loss_pct : ℚ) :
    Option (ℤ × PositionB) :=
  if crossover > 0 then
    let size := pyInt (cash * position_pct / close)
    if size > 0 then some (size, ⟨close, close * (1 - stop_loss_pct)⟩)
    else none
  else none

/-- Variant B exit (`next` while long): a downward crossover exits with
`signal_reversal`; only otherwise is `close ≤ stop_price` checked for a
`stop_loss` exit. -/
def exitB (crossover : ℤ) (close stop_price : ℚ) : Option BExitReason :=
  if crossover < 0 then some .signal_reversal
  else if close ≤ stop_price then some .stop_loss
  else none

/-- C1, counterexample: the claim says the extended time stop fires
unconditionally once `days_held ≥ 2*max_hold_days`, but the source
hard-codes the extended deadline at 14 days. With `max_hold_days = 5`, a
profitable position (P&L 3% > 1%) held 10 calendar days (= 2*5), away
from both stop and target, produces no exit at all. -/
theorem extended_time_stop_not_at_twice_max_hold :
    check_exit_conditions ⟨100, 0, 98, 106⟩ 103 10 5 = none ∧
    (10 : ℤ) ≥ 2 * 5 ∧
    ¬ ((103 : ℚ) ≤ 98) ∧ ¬ ((103 : ℚ) ≥ 106) ∧
    ((103 : ℚ) / 100 - 1) * 100 > 1 := by
  refine ⟨?_, by norm_num, by norm_num, by norm_num, by norm_num⟩
  norm_num [check_exit_conditions]

/-- C1, amended: while LONG, Variant A checks stop-loss, then target,
then the time rules, first match winning; at `days_held ≥ max_hold_days`
it exits with `time_stop` when `current_pnl_pct ≤ 1`, otherwise the hold
is extended and it exits with `extended_time_stop` once `days_held ≥ 14`
(a hard-coded constant, equal to `2*max_hold_days` only at the default
`max_hold_days = 7`); no other exit path exists. -/
theorem momentum_exit_rules_amended (p : PositionA) (price : ℚ) (d mhd : ℤ) :
    (price ≤ p.stop_price → check_exit_conditions p price d mhd = some .stop_loss) ∧
    (¬ price ≤ p.stop_price → price ≥ p.target_price →
      check_exit_conditions p price d mhd = some .target) ∧
    (¬ price ≤ p.stop_price → ¬ price ≥ p.target_price →
      d - p.entry_date ≥ mhd → (price / p.entry_price - 1) * 100 ≤ 1 →
      check_exit_conditions p price d mhd = some .time_stop) ∧
    (¬ price ≤ p.stop_price → ¬ price ≥ p.target_price →
      d - p.entry_date ≥ mhd → ¬ ((price / p.entry_price - 1) * 100 ≤ 1) →
      d - p.entry_date ≥ 14 →
      check_exit_conditions p price d mhd = some .extended_time_stop) ∧
    (check_exit_conditions p price d mhd = none ↔
      ¬ price ≤ p.stop_price ∧ ¬ price ≥ p.target_price ∧
      (¬ d - p.entry_date ≥ mhd ∨
        (¬ ((price / p.entry_price - 1) * 100 ≤ 1) ∧ ¬ d - p.entry_date ≥ 14))) := by
  unfold check_exit_conditions
  split_ifs with h1 h2 <;> simp_all
  by_cases h6 : (price / p.entry_price - 1) * 100 ≤ 1 <;>
    by_cases h7 : (14 : ℤ) ≤ d - p.entry_date <;>
      simp_all [← not_le]

/-- C1, witness for the amended theorem at a concrete stop-loss hit. -/
theorem momentum_exit_rules_amended_witness :
    check_exit_conditions ⟨100, 0, 98, 106⟩ 97 0 7 = some .stop_loss :=
  (momentum_exit_rules_amended ⟨100, 0, 98, 106⟩ 97 0 7).1 (by norm_num)

/-- C10: the `days_held` quantity driving the time-stop rules is the
calendar-day difference `current_date - entry_date`: translating both
dates by any offset leaves every exit decision unchanged, and a position
entered on a Friday (ordinal 0) with P&L 0.5% and `max_hold_days = 3`
exits with `time_stop` on the very next trading bar (Monday, ordinal 3),
after only one bar, because the weekend days count. -/
theorem days_held_is_calendar_difference :
    (∀ (p : PositionA) (price : ℚ) (d k mhd : ℤ),
      check_exit_conditions
        ⟨p.entry_price, p.entry_date + k, p.stop_price, p.target_price⟩
        price (d + k) mhd =
      check_exit_conditions p price d mhd) ∧
    run_exits ⟨100, 0, 98, 106⟩ 3 [(3, 201/2)] = some (0, .time_stop) := by
  constructor
  · intro p price d k mhd
    unfold check_exit_conditions
    simp only [add_sub_add_right_eq_sub]
  · norm_num [run_exits, check_exit_conditions]

/-- C2: while flat, the Variant A entry signal fires at bar `i` if and
only if all four conditions hold there simultaneously: close above the
PREVIOUS bar's rolling high, volume above `volume_threshold` times the
average volume, close above the trend moving average, and RSI strictly
inside the `(rsi_lower, rsi_upper)` band; each bar is evaluated from the
indicator values current at that bar, so one false condition blocks the
entry for that bar only. -/
theorem entry_iff_all_four (p : AParams) (bars : List BarA) (rsi : ℕ → ℚ)
    (i : ℕ) (bar : BarA) (prev_highest avg_volume sma_value : ℚ)
    (hb : bars[i]? = some bar)
    (hh : rolling_max (bars.map BarA.high) p.lookback_high (i - 1) = some prev_highest)
    (hv : simple_moving_average (bars.map BarA.volume) p.volume_lookback i = some avg_volume)
    (hs : simple_moving_average (bars.map BarA.close) p.sma_period i = some sma_value) :
    check_entry_conditions p bars rsi i = true ↔
      (bar.close > prev_highest ∧
       bar.volume > avg_volume * p.volume_threshold ∧
       bar.close > sma_value ∧
       (p.rsi_lower < rsi i ∧ rsi i < p.rsi_upper)) := by
  unfold check_entry_conditions
  rw [hb, hh, hv, hs]
  simp [Bool.and_eq_true, decide_eq_true_iff, and_assoc]

/-- C2, witness: a concrete two-bar series on which all four conditions
hold and the entry signal fires. -/
theorem entry_iff_all_four_witness :
    check_entry_conditions ⟨1, 1, 1/2, 2, 30, 75⟩
      [⟨0, 10, 10, 9, 10, 100⟩, ⟨1, 12, 12, 11, 12, 200⟩]
      (fun _ => 50) 1 = true :=
  (entry_iff_all_four ⟨1, 1, 1/2, 2, 30, 75⟩
    [⟨0, 10, 10, 9, 10, 100⟩, ⟨1, 12, 12, 11, 12, 200⟩]
    (fun _ => 50) 1 ⟨1, 12, 12, 11, 12, 200⟩ 10 200 11
    (by decide) (by decide)
    (by norm_num [simple_moving_average, windowSlice])
    (by norm_num [simple_moving_average, windowSlice])).mpr (by norm_num)

/-- C7: in both variants the stop price is set at entry to exactly
`entry_price * (1 - stop_loss_pct)` and is never modified while the
position is open; with entry price 500 and `stop_loss_pct = 0.02` the
stop is exactly 490, and a bar closing at 489.99 exits with `stop_loss`
on that same bar (index 0), not the next. -/
theorem stop_price_invariant :
    (∀ (pv cash ep : ℚ) (d : ℤ) (slp tp : ℚ) (sz : ℤ) (pos : PositionA),
      enter_position pv cash ep d slp tp = some (sz, pos) →
        pos.stop_price = ep * (1 - slp)) ∧
    (∀ (cr : ℤ) (cash pp cl slp : ℚ) (sz : ℤ) (pos : PositionB),
      enterB cr cash pp cl slp = some (sz, pos) →
        pos.stop_price = cl * (1 - slp)) ∧
    (∀ (p : PositionA) (mhd : ℤ) (bars : List (ℤ × ℚ)) (q : PositionA),
      q ∈ long_states p mhd bars → q.stop_price = p.stop_price) ∧
    enter_position 10000 10000 500 0 (2/100) (6/100) =
      some (6, ⟨500, 0, 490, 530⟩) ∧
    run_exits ⟨500, 0, 490, 530⟩ 7 [(0, 48999/100), (1, 600)] =
      some (0, .stop_loss) := by
  refine ⟨?_, ?_, ?_, ?_, ?_⟩
  · intro pv cash ep d slp tp sz pos h
    simp only [enter_position] at h
    split_ifs at h
    simp only [Option.some.injEq, Prod.mk.injEq] at h
    rw [← h.2]
  · intro cr cash pp cl slp sz pos h
    simp only [enterB] at h
    split_ifs at h
    simp only [Option.some.injEq, Prod.mk.injEq] at h
    rw [← h.2]
  · intro p mhd bars
    induction bars with
    | nil => intro q hq; simp [long_states] at hq
    | cons b rest ih =>
      intro q hq
      obtain ⟨d, c⟩ := b
      rw [long_states] at hq
      rcases hcheck : check_exit_conditions p c d mhd with _ | r <;>
        rw [hcheck] at hq
      · rcases List.mem_cons.mp hq with rfl | h
        · rfl
        · exact ih q h
      · simp at hq
        rw [hq]
  · norm_num [enter_position, pyInt]
  · norm_num [run_exits, check_exit_conditions]

/-- C7, witness: the first conjunct applied at the concrete entry with
entry price 500 and a 2% stop. -/
theorem stop_price_invariant_witness :
    (⟨500, 0, 490, 530⟩ : PositionA).stop_price = 500 * (1 - 2/100) :=
  stop_price_invariant.1 10000 10000 500 0 (2/100) (6/100) 6
    ⟨500, 0, 490, 530⟩ (by norm_num [enter_position, pyInt])

/-- C8: for Variant A the executed size equals
`⌊portfolio_value * 0.30 / entry_price⌋` (the fixed fraction 0.30 of
portfolio value), and the entry is skipped, leaving the strategy flat
with no trade, exactly when the computed size is nonpositive or
`size * entry_price` exceeds available cash. -/
theorem position_sizing_rules (pv cash ep : ℚ) (d : ℤ) (slp tp : ℚ) :
    (∀ (sz : ℤ) (pos : PositionA),
      enter_position pv cash ep d slp tp = some (sz, pos) →
        sz = ⌊pv * (3/10) / ep⌋ ∧ 0 < sz ∧ (sz : ℚ) * ep ≤ cash) ∧
    (enter_position pv cash ep d slp tp = none ↔
      pyInt (pv * (3/10) / ep) ≤ 0 ∨
        cash < (pyInt (pv * (3/10) / ep) : ℚ) * ep) := by
  constructor
  · intro sz pos h
    simp only [enter_position] at h
    split_ifs at h with h1 h2
    simp only [Option.some.injEq, Prod.mk.injEq] at h
    push_neg at h1 h2
    obtain ⟨rfl, -⟩ := h
    exact ⟨pyInt_pos_eq_floor h1, h1, h2⟩
  · simp only [enter_position]
    split_ifs with h1 h2
    · simp [h1]
    · simp [h2]
    · push_neg at h1 h2
      simp only [← not_le] at h1
      simp [h1, not_lt.mpr h2]

/-- C8, witness: the sizing characterization applied at a concrete
accepted entry (portfolio 10000, entry price 500, size 6). -/
theorem position_sizing_rules_witness :
    (6 : ℤ) = ⌊(10000 : ℚ) * (3/10) / 500⌋ ∧ (0 : ℤ) < 6 ∧
      ((6 : ℤ) : ℚ) * 500 ≤ 10000 :=
  (position_sizing_rules 10000 10000 500 0 (2/100) (6/100)).1 6
    ⟨500, 0, 490, 530⟩ (by norm_num [enter_position, pyInt])

/-- C9: Variant B exit rules while long, first match winning: a downward
crossover exits with `signal_reversal` (so on a bar where the crossover
is -1 AND the stop is breached, the reason is `signal_reversal`); only
when the crossover is not downward is the stop checked; and no exit
occurs in any other case — in particular there is no target and no time
stop in this variant. -/
theorem ma_crossover_exit_rules (crossover : ℤ) (close stop_price : ℚ) :
    (crossover = -1 → exitB crossover close stop_price = some .signal_reversal) ∧
    (0 ≤ crossover → close ≤ stop_price →
      exitB crossover close stop_price = some .stop_loss) ∧
    (exitB crossover close stop_price = none ↔
      0 ≤ crossover ∧ stop_price < close) := by
  unfold exitB
  split_ifs with h1 h2 <;> simp_all <;> omega

/-- C9, witness: a bar with a downward crossover and a simultaneous stop
breach (close 90 below stop 95) exits with `signal_reversal`. -/
theorem ma_crossover_exit_rules_witness :
    exitB (-1) 90 95 = some .signal_reversal ∧ (90 : ℚ) ≤ 95 :=
  ⟨(ma_crossover_exit_rules (-1) 90 95).1 rfl, by norm_num⟩

/-- Optimizer scoring function (`optimize_ma_strategy.py`): conditional
weighted credits for total return, Sharpe-like ratio, win rate and
drawdown. The sharpe input is `Option`-valued because the analyzer
reports `None` when the ratio is unavailable; the source's Python
truthiness test `if sharpe_ratio and sharpe_ratio > 0.5` is modelled
exactly. -/
def score (total_return : ℚ) (sharpe : Option ℚ) (win_rate max_drawdown : ℚ) : ℚ :=
  (if total_return > 20 then 40 * (total_return / 100) else 0) +
  (match sharpe with
   | none => 0
   | some sr => if sr ≠ 0 ∧ sr > 1/2 then 30 * (sr / 2) else 0) +
  (if win_rate > 45 then 20 * (win_rate / 100) else 0) +
  (if max_drawdown < 25 then 10 * ((25 - max_drawdown) / 25) else 0)

/-- Scoring term for total return as the claim words it. -/
def claim_return_term (tr : ℚ) : ℚ := if tr > 20 then 40 * (tr / 100) else 0

/-- Scoring term for the Sharpe-like ratio as the claim words it:
credited only when available and above 0.5. -/
def claim_sharpe_term : Option ℚ → ℚ
  | none => 0
  | some s => if s > 1/2 then 30 * (s / 2) else 0

/-- Scoring term for win rate as the claim words it. -/
def claim_winrate_term (wr : ℚ) : ℚ := if wr > 45 then 20 * (wr / 100) else 0

/-- Scoring term for maximum drawdown as the claim words it. -/
def claim_drawdown_term (dd : ℚ) : ℚ := if dd < 25 then 10 * ((25 - dd) / 25) else 0

/-- One row of the optimizer results table (`results.append` in
`optimize_ma_strategy.py`); `sharpe_val` and `wl_quot` hold the stored,
already-coerced values. -/
structure OptResult : Type where
  fast_period : ℕ
  slow_period : ℕ
  stop_loss_pct : ℚ
  total_return : ℚ
  sharpe_val : ℚ
  max_drawdown : ℚ
  total_trades : ℕ
  win_rate : ℚ
  wl_quot : ℚ
  score : ℚ
  deriving DecidableEq, Repr

/-- Score-descending comparison used to rank optimizer rows: the entire
sort key of `results_df.sort_values('score', ascending=False)` is the
score alone. -/
def scoreDesc (a b : OptResult) : Prop := b.score ≤ a.score

instance : DecidableRel scoreDesc :=
  fun a b => inferInstanceAs (Decidable (b.score ≤ a.score))

instance : IsTotal OptResult scoreDesc := ⟨fun a b => le_total b.score a.score⟩

instance : IsTrans OptResult scoreDesc := ⟨fun _ _ _ hab hbc => le_trans hbc hab⟩

/-- Ranking contract of `results_df.sort_values('score', ascending=False)`
as the pandas library documents it for the default non-stable quicksort
kind: the output is a permutation of the input rows that is sorted
descending by the score column alone; the relative order of equal-score
rows is NOT specified by the program. -/
def sort_values_spec (input output : List OptResult) : Prop :=
  output.Perm input ∧ output.Sorted scoreDesc

/-- Stored sharpe in a results row: the source writes
`sharpe_ratio if sharpe_ratio else 0`, coercing both `None` and the real
value `0.0` to the plain number 0. -/
def stored_sharpe : Option ℚ → ℚ
  | none => 0
  | some v => if v = 0 then 0 else v

/-- Win/loss metric stored in a results row: `avg_win / abs(avg_loss)`
when there is at least one winning and one losing trade and the
denominator is nonzero, and the plain number 0 in every other case. -/
def win_loss_metric (won lost : ℕ) (avg_win avg_loss : ℚ) : ℚ :=
  if 0 < won ∧ 0 < lost then
    (if |avg_loss| ≠ 0 then avg_win / |avg_loss| else 0)
  else 0

/-- Verdicts of the decision criteria evaluator (`run_backtest.py`). -/
inductive Verdict : Type
  | pass
  | marginal
  | fail
  deriving DecidableEq, Repr

/-- Count of institutional criteria met (the `criteria_met` accumulation
in `run_backtest.py`); the sharpe criterion repeats the source's Python
truthiness test `if sharpe_value and sharpe_value > 0.5`. -/
def criteria_met (total_return : ℚ) (sharpe : Option ℚ)
    (max_drawdown win_rate : ℚ) (total_trades : ℕ) : ℕ :=
  (if total_return > 20 then 1 else 0) +
  (match sharpe with
   | none => 0
   | some v => if v ≠ 0 ∧ v > 1/2 then 1 else 0) +
  (if max_drawdown < 25 then 1 else 0) +
  (if win_rate ≥ 45 then 1 else 0) +
  (if total_trades ≥ 20 then 1 else 0)

/-- Final verdict mapping of `run_backtest.py`: PASS at four or more
criteria, MARGINAL at exactly three, FAIL otherwise. -/
def verdict (total_return : ℚ) (sharpe : Option ℚ)
    (max_drawdown win_rate : ℚ) (total_trades : ℕ) : Verdict :=
  if criteria_met total_return sharpe max_drawdown win_rate total_trades ≥ 4 then .pass
  else if criteria_met total_return sharpe max_drawdown win_rate total_trades = 3 then .marginal
  else .fail

/-- The five pass/fail criteria as the claim words them; an unavailable
sharpe yields `false` for its criterion. -/
def claim_criteria (total_return : ℚ) (sharpe : Option ℚ)
    (max_drawdown win_rate : ℚ) (total_trades : ℕ) : List Bool :=
  [decide (total_return > 20),
   (match sharpe with
    | none => false
    | some v => decide (v > 1/2)),
   decide (max_drawdown < 25),
   decide (win_rate ≥ 45),
   decide (total_trades ≥ 20)]

/-- C3: for every evaluated combination the optimizer score is exactly
the sum of the four conditional credit terms worded in the claim — the
sharpe term counting only when the ratio is available and above 0.5 — a
term whose threshold is unmet contributing exactly zero, and the total is
never negative. -/
theorem score_is_sum_of_conditional_terms (tr : ℚ) (sharpe : Option ℚ) (wr dd : ℚ) :
    score tr sharpe wr dd =
      claim_return_term tr + claim_sharpe_term sharpe +
      claim_winrate_term wr + claim_drawdown_term dd ∧
    0 ≤ score tr sharpe wr dd := by
  have hmatch : (match sharpe with
      | none => (0 : ℚ)
      | some sr => if sr ≠ 0 ∧ sr > 1/2 then 30 * (sr / 2) else 0) =
      claim_sharpe_term sharpe := by
    rcases sharpe with _ | s
    · rfl
    · show (if s ≠ 0 ∧ s > 1/2 then 30 * (s / 2) else 0) =
        (if s > 1/2 then 30 * (s / 2) else 0)
      split_ifs with h1 h2 h3
      · rfl
      · exact absurd h1.2 h2
      · exact absurd ⟨ne_of_gt (by linarith), h3⟩ h1
      · rfl
  constructor
  · unfold score claim_return_term claim_winrate_term claim_drawdown_term
    rw [hmatch]
  · have t1 : (0 : ℚ) ≤ claim_return_term tr := by
      unfold claim_return_term; split_ifs with h <;> linarith
    have t2 : (0 : ℚ) ≤ claim_sharpe_term sharpe := by
      rcases sharpe with _ | s
      · exact le_refl 0
      · show (0 : ℚ) ≤ if s > 1/2 then 30 * (s / 2) else 0
        split_ifs with h <;> linarith
    have t3 : (0 : ℚ) ≤ claim_winrate_term wr := by
      unfold claim_winrate_term; split_ifs with h <;> linarith
    have t4 : (0 : ℚ) ≤ claim_drawdown_term dd := by
      unfold claim_drawdown_term; split_ifs with h <;> linarith
    calc (0 : ℚ) ≤ claim_return_term tr + claim_sharpe_term sharpe +
        claim_winrate_term wr + claim_drawdown_term dd := by linarith
    _ = score tr sharpe wr dd := by
        unfold score claim_return_term claim_winrate_term claim_drawdown_term
        rw [hmatch]

/-- Two optimizer rows with equal score where the second row has the
higher total return, used to probe the tie-break behaviour. -/
def rowA : OptResult := ⟨10, 30, 2/100, 5, 0, 10, 4, 50, 1, 10⟩

/-- Companion row to `rowA`: same score, higher total return. -/
def rowB : OptResult := ⟨15, 40, 2/100, 8, 0, 10, 4, 50, 1, 10⟩

/-- C4, counterexample: the score-only ranking the program performs does
not put the higher-return row first among equal scores: the output
`[rowA, rowB]`, which ranks the LOWER-return `rowA` first, satisfies
everything `sort_values('score', ascending=False)` does (a permutation
of the rows, sorted descending by score), refuting the claimed tie-break
by total return (and a fortiori the drawdown tie-break). On a two-row
frame this is also the order the library actually produces, since tiny
arrays are sorted by a stable insertion pass. -/
theorem equal_score_ties_not_broken_by_return :
    sort_values_spec [rowA, rowB] [rowA, rowB] ∧
    rowA.score = rowB.score ∧
    rowA.total_return < rowB.total_return :=
  ⟨⟨List.Perm.refl _, by simp [List.sorted_cons, scoreDesc, rowA, rowB]⟩,
   by norm_num [rowA, rowB], by norm_num [rowA, rowB]⟩

/-- C4, amended: the optimizer keeps the full scored list (a permutation
of the evaluated rows) ordered descending by score alone; the relative
order of equal-score rows is unspecified — in particular no tie-break by
higher total return or lower drawdown is applied. The ranking contract is
satisfiable for every input (realized here by a sort on the score key
only), and for equal-score rows it pins down neither order: both
orderings of `rowA` and `rowB` satisfy it. -/
theorem ranking_sorted_by_score_only (rs : List OptResult) :
    sort_values_spec rs (List.insertionSort scoreDesc rs) ∧
    sort_values_spec [rowA, rowB] [rowA, rowB] ∧
    sort_values_spec [rowA, rowB] [rowB, rowA] :=
  ⟨⟨List.perm_insertionSort scoreDesc rs, List.sorted_insertionSort scoreDesc rs⟩,
   ⟨List.Perm.refl _, by simp [List.sorted_cons, scoreDesc, rowA, rowB]⟩,
   ⟨List.Perm.swap rowA rowB [], by simp [List.sorted_cons, scoreDesc, rowA, rowB]⟩⟩

/-- C5, counterexample: with three winning and zero losing trades the
stored win/loss metric is the plain number 0, and an unavailable sharpe
is likewise stored as 0 — indistinguishable from a genuine value of 0.0 —
rather than as an explicit "not available" marker. -/
theorem undefined_metrics_coerced_to_zero :
    win_loss_metric 3 0 5 2 = 0 ∧
    stored_sharpe none = 0 ∧
    stored_sharpe none = stored_sharpe (some 0) := by
  refine ⟨by norm_num [win_loss_metric], rfl, ?_⟩
  norm_num [stored_sharpe]

/-- C5, amended: an unavailable sharpe does fail its conditional-credit
threshold in scoring (contributing zero), but the REPORTED metrics are
coerced zeros, not explicit markers: the stored sharpe for `None` is 0,
and the stored win/loss metric is 0 whenever there are no winning or no
losing trades. -/
theorem unavailable_metrics_zero_credit_but_stored_as_zero :
    (∀ tr wr dd : ℚ, score tr none wr dd =
      claim_return_term tr + claim_winrate_term wr + claim_drawdown_term dd) ∧
    stored_sharpe none = 0 ∧
    (∀ (won : ℕ) (avg_win avg_loss : ℚ),
      win_loss_metric won 0 avg_win avg_loss = 0) ∧
    (∀ (lost : ℕ) (avg_win avg_loss : ℚ),
      win_loss_metric 0 lost avg_win avg_loss = 0) := by
  refine ⟨?_, rfl, ?_, ?_⟩
  · intro tr wr dd
    unfold score claim_return_term claim_winrate_term claim_drawdown_term
    ring
  · intro won avg_win avg_loss
    simp [win_loss_metric]
  · intro lost avg_win avg_loss
    simp [win_loss_metric]

/-- C6: the decision criteria evaluator is a pure function of the
metrics; the number of criteria met equals the count of true entries
among the claim's five pass/fail criteria (with an unavailable sharpe
failing its criterion), and the verdict is PASS exactly at four or more,
MARGINAL exactly at three, FAIL exactly at two or fewer. -/
theorem verdict_rules (tr : ℚ) (sharpe : Option ℚ) (dd wr : ℚ) (nt : ℕ) :
    criteria_met tr sharpe dd wr nt =
      (claim_criteria tr sharpe dd wr nt).count true ∧
    (verdict tr sharpe dd wr nt = .pass ↔
      4 ≤ (claim_criteria tr sharpe dd wr nt).count true) ∧
    (verdict tr sharpe dd wr nt = .marginal ↔
      (claim_criteria tr sharpe dd wr nt).count true = 3) ∧
    (verdict tr sharpe dd wr nt = .fail ↔
      (claim_criteria tr sharpe dd wr nt).count true ≤ 2) := by
  have hcount : criteria_met tr sharpe dd wr nt =
      (claim_criteria tr sharpe dd wr nt).count true := by
    have hs : (match sharpe with
        | none => (0 : ℕ)
        | some v => if v ≠ 0 ∧ v > 1/2 then 1 else 0) =
        (if (match sharpe with
          | none => false
          | some v => decide (v > 1/2)) = true then (1 : ℕ) else 0) := by
      rcases sharpe with _ | s
      · rfl
      · show (if s ≠ 0 ∧ s > 1/2 then (1 : ℕ) else 0) =
          (if decide (s > 1/2) = true then (1 : ℕ) else 0)
        simp only [decide_eq_true_eq]
        split_ifs with h1 h2 h3
        · rfl
        · exact absurd h1.2 h2
        · exact absurd ⟨ne_of_gt (by linarith), h3⟩ h1
        · rfl
    unfold criteria_met claim_criteria
    rw [hs]
    simp [List.count_cons, List.count_nil]
    split_ifs <;> omega
  refine ⟨hcount, ?_, ?_, ?_⟩ <;>
    rw [← hcount] <;> unfold verdict <;> split_ifs with h1 h2 <;>
      simp_all <;> omega
